/-
  Verification of the kisport-uvm assembler/interpreter core.

  Shallow embedding of:
    - uvm_asm.py   : Instruction records, range checks, 3-byte little-endian packing,
                     line grammar and the full text -> IR -> bytecode pipeline;
    - uvm_interp.py: bytecode format check, word decoding, and the execution loop
                     over a 128-slot register file and a growable memory store.

  Machine integers are modelled as Nat/Int (Python integers are unbounded);
  fallible code returns Except.
-/
import Mathlib

set_option maxRecDepth 10000

/-! ## Errors

Python raises `ValueError` (and would raise `OverflowError` from `int.to_bytes`,
`TypeError` on a missing operand field, `IndexError` on an out-of-bounds list
subscript).  Each distinct raise site in the source gets one constructor carrying
the data its message carries. -/

/-- Failures of the assembler (`uvm_asm.py`).  `rangeError` carries the field
name, offending value and bit width, exactly the data in the message of
`_ensure_range`; `parseError` carries the stripped offending line. -/
inductive AsmError where
  | parseError (line : List Char)
  | subEqMismatch
  | rangeError (name : String) (value : Int) (bits : Nat)
  | unknownOp (name : String)
  | missingField (name : String)
  | overflowError (value : Nat)
  deriving Repr, DecidableEq

/-- Failures of the interpreter (`uvm_interp.py`): the bytecode-length format
check, the unknown-opcode check (its message carries only the opcode value),
and Python's `IndexError` from a list subscript out of bounds. -/
inductive VMError where
  | formatError
  | decodeError (opcode : Nat)
  | indexError
  deriving Repr, DecidableEq

/-! ## uvm_asm.py : encoding -/

/-- `mask(bits) = (1 << bits) - 1` (defined identically in both source files). -/
def mask (bits : Nat) : Nat := (1 <<< bits) - 1

/-- `_ensure_range(value, bits, name)`: raises unless `0 <= value <= mask(bits)`. -/
def _ensure_range (value : Int) (bits : Nat) (name : String) : Except AsmError Unit :=
  if 0 ≤ value ∧ value ≤ (mask bits : Int) then .ok () else .error (.rangeError name value bits)

/-- The `Instruction` dataclass: `name`, opcode `A`, and operand fields `B`,
`C`, `D` (the latter two default to `None`).  Field values are unbounded
Python integers, hence `Int`. -/
structure Instruction where
  name : String
  A : Nat
  B : Int
  C : Option Int := none
  D : Option Int := none
  deriving Repr, DecidableEq

/-- `command.to_bytes(3, "little")`: three bytes, least significant first.
Python raises `OverflowError` when the value needs more than 3 bytes. -/
def int_to_bytes3 (command : Nat) : Except AsmError (List Nat) :=
  if command < 16777216 then
    .ok [command % 256, command / 256 % 256, command / 65536 % 256]
  else .error (.overflowError command)

/-- `Instruction.to_bytes`: per-kind range checks, then bit-packing
`A | B << ... | C << ... (| D << 16)` and 3-byte little-endian serialization.
A branch that reads `self.C`/`self.D` when it is `None` is a `TypeError` in
Python (`missingField` here); no record built by the parser ever hits it. -/
def Instruction.to_bytes (i : Instruction) : Except AsmError (List Nat) :=
  if i.name = "load_const" then
    match i.C with
    | none => .error (.missingField "C")
    | some c => do
      _ensure_range i.B 7 "B (reg)"
      _ensure_range c 12 "C (const)"
      int_to_bytes3 (i.A ||| (i.B.toNat <<< 4) ||| (c.toNat <<< 11))
  else if i.name = "read_mem" then
    match i.C with
    | none => .error (.missingField "C")
    | some c => do
      _ensure_range i.B 7 "B (dst reg)"
      _ensure_range c 7 "C (addr reg)"
      int_to_bytes3 (i.A ||| (i.B.toNat <<< 4) ||| (c.toNat <<< 11))
  else if i.name = "write_mem" then
    match i.C with
    | none => .error (.missingField "C")
    | some c => do
      _ensure_range i.B 7 "B (addr reg)"
      _ensure_range c 7 "C (src reg)"
      int_to_bytes3 (i.A ||| (i.B.toNat <<< 4) ||| (c.toNat <<< 11))
  else if i.name = "sub_mem" then
    match i.C, i.D with
    | some c, some d => do
      _ensure_range i.B 5 "B (offset)"
      _ensure_range c 7 "C (base reg)"
      _ensure_range d 7 "D (src reg)"
      int_to_bytes3 (i.A ||| (i.B.toNat <<< 4) ||| (c.toNat <<< 9) ||| (d.toNat <<< 16))
    | none, _ => .error (.missingField "C")
    | _, none => .error (.missingField "D")
  else .error (.unknownOp i.name)

/-! ## uvm_interp.py : execution

Registers and memory hold unbounded Python integers (`Int`); the bytecode is a
sequence of byte values (`List Nat`).  Python list subscripts accept negative
indices (counted from the end) and raise `IndexError` outside `[-len, len)`;
`pyIndex`/`pyGet`/`pySet` model exactly that. -/

/-- Translate a Python list index to a position: `i` itself for `0 ≤ i < len`,
`len + i` for negative `i` with `len + i ≥ 0`, out of bounds otherwise. -/
def pyIndex (len : Nat) (i : Int) : Option Nat :=
  if 0 ≤ i then (if i < (len : Int) then some i.toNat else none)
  else if 0 ≤ (len : Int) + i then some ((len : Int) + i).toNat
  else none

/-- `memory[addr]` (Python list subscript read). -/
def pyGet (l : List Int) (i : Int) : Except VMError Int :=
  match pyIndex l.length i with
  | some n => .ok (l.getD n 0)
  | none => .error .indexError

/-- `memory[addr] = v` (Python list subscript write). -/
def pySet (l : List Int) (i : Int) (v : Int) : Except VMError (List Int) :=
  match pyIndex l.length i with
  | some n => .ok (l.set n v)
  | none => .error .indexError

/-- `ensure_memory_size(memory, addr)`: extend with zeros to `addr + 1` cells
when `addr >= len(memory)`, otherwise leave the list alone. -/
def ensure_memory_size (memory : List Int) (addr : Int) : List Int :=
  if (memory.length : Int) ≤ addr then
    memory ++ List.replicate (addr + 1 - (memory.length : Int)).toNat 0
  else memory

/-- `int.from_bytes(bytecode[i : i + 3], "little")`. -/
def word3 (b0 b1 b2 : Nat) : Nat := b0 + b1 * 256 + b2 * 65536

/-- One iteration of the interpreter loop body: extract the opcode nibble,
dispatch on it (an opcode outside `{14, 4, 2, 1}` raises, message carrying the
opcode value), and apply the instruction's effect to registers and memory. -/
def execStep (regs memory : List Int) (command : Nat) :
    Except VMError (List Int × List Int) :=
  let opcode := command &&& mask 4
  if opcode = 14 then  -- load_const
    let reg := (command >>> 4) &&& mask 7
    let const := (command >>> 11) &&& mask 12
    .ok (regs.set reg (const : Int), memory)
  else if opcode = 4 then  -- read_mem
    let dst := (command >>> 4) &&& mask 7
    let ptr := (command >>> 11) &&& mask 7
    let addr := regs.getD ptr 0
    let memory := ensure_memory_size memory addr
    do
      let v ← pyGet memory addr
      .ok (regs.set dst v, memory)
  else if opcode = 2 then  -- write_mem
    let ptr := (command >>> 4) &&& mask 7
    let src := (command >>> 11) &&& mask 7
    let addr := regs.getD ptr 0
    let memory := ensure_memory_size memory addr
    do
      let memory ← pySet memory addr (regs.getD src 0)
      .ok (regs, memory)
  else if opcode = 1 then  -- sub_mem
    let offset := (command >>> 4) &&& mask 5
    let base := (command >>> 9) &&& mask 7
    let src := (command >>> 16) &&& mask 7
    let addr := regs.getD base 0 + (offset : Int)
    let memory := ensure_memory_size memory addr
    do
      let v ← pyGet memory addr
      let memory ← pySet memory addr (v - regs.getD src 0)
      .ok (regs, memory)
  else .error (.decodeError opcode)

/-- The interpreter loop: consume the bytecode three bytes at a time.  The
catch-all is unreachable from `execute` (the length guard has already ensured
a multiple of 3). -/
def execLoop : List Nat → List Int → List Int → Except VMError (List Int × List Int)
  | b0 :: b1 :: b2 :: rest, regs, memory =>
    match execStep regs memory (word3 b0 b1 b2) with
    | .ok (regs, memory) => execLoop rest regs memory
    | .error e => .error e
  | _, regs, memory => .ok (regs, memory)

/-- `execute(bytecode)`: fresh all-zero registers (128 slots) and memory
(256 cells); reject a length that is not a multiple of 3 before any
instruction runs; then the loop. -/
def execute (bytecode : List Nat) : Except VMError (List Int × List Int) :=
  if bytecode.length % 3 = 0 then
    execLoop bytecode (List.replicate 128 0) (List.replicate 256 0)
  else .error .formatError

/-! ## uvm_asm.py : line grammar

The five anchored regexes are deterministic: every `\s*` is followed by a
token that is not whitespace and every `\d+` by a token that is not a digit,
so greedy matching with no backtracking recognizes exactly the same lines.
Each regex becomes a function on `List Char`; shared left factors of the
patterns become shared prefix parsers. -/

/-- `\s` over the claims' (ASCII) alphabet: the characters Python's `str.strip`
and `\s` treat as whitespace. -/
def isPySpace (c : Char) : Bool :=
  c = ' ' || c = '\t' || c = '\n' || c = '\r' || c = '\x0b' || c = '\x0c'

/-- `\d`. -/
def isPyDigit (c : Char) : Bool := '0' ≤ c && c ≤ '9'

/-- Numeric value of a digit character. -/
def digitVal (c : Char) : Nat := c.toNat - '0'.toNat

/-- `\s*`: consume leading whitespace. -/
def skipWs (s : List Char) : List Char := s.dropWhile isPySpace

/-- One literal character. -/
def expectChar (c : Char) : List Char → Option (List Char)
  | x :: rest => if x = c then some rest else none
  | [] => none

/-- A literal character sequence. -/
def expectStr : List Char → List Char → Option (List Char)
  | [], s => some s
  | c :: lit, s => (expectChar c s).bind (expectStr lit)

/-- Greedy tail of `\d+`, accumulating the decimal value (`int(...)` of the
matched group). -/
def takeDigits : List Char → Nat → Nat × List Char
  | c :: rest, acc =>
    if isPyDigit c then takeDigits rest (acc * 10 + digitVal c) else (acc, c :: rest)
  | [], acc => (acc, [])

/-- `\d+` (at least one digit), returning the group's numeric value. -/
def parseDigits : List Char → Option (Nat × List Char)
  | c :: rest => if isPyDigit c then some (takeDigits rest (digitVal c)) else none
  | [] => none

/-- Shared left factor `^r(\d+)\s*=\s*` of `LOAD_CONST_RE` and `READ_RE`. -/
def rEqPrefix (s : List Char) : Option (Nat × List Char) :=
  match expectChar 'r' s with
  | none => none
  | some s1 =>
    match parseDigits s1 with
    | none => none
    | some (b, s2) =>
      match expectChar '=' (skipWs s2) with
      | none => none
      | some s3 => some (b, skipWs s3)

/-- Shared left factor `^mem\[\s*r(\d+)\s*` of `WRITE_RE`, `SUB_RE` and
`SUB_EQ_RE` (also the `mem\[\s*r(\d+)\s*]` suffix part of `READ_RE` reuses
`memRegPrefix` up to its closing bracket). -/
def memRegPrefix (s : List Char) : Option (Nat × List Char) :=
  match expectStr ['m', 'e', 'm', '['] s with
  | none => none
  | some s1 =>
    match expectChar 'r' (skipWs s1) with
    | none => none
    | some s2 =>
      match parseDigits s2 with
      | none => none
      | some (n, s3) => some (n, skipWs s3)

/-- Shared left factor `^mem\[\s*r(C)\s*\+\s*(B)\s*]\s*` of `SUB_RE` and
`SUB_EQ_RE`. -/
def subAddrPrefix (s : List Char) : Option (Nat × Nat × List Char) :=
  match memRegPrefix s with
  | none => none
  | some (c, s1) =>
    match expectChar '+' s1 with
    | none => none
    | some s2 =>
      match parseDigits (skipWs s2) with
      | none => none
      | some (b, s3) =>
        match expectChar ']' (skipWs s3) with
        | none => none
        | some s4 => some (c, b, skipWs s4)

/-- `LOAD_CONST_RE = ^r(?P<B>\d+)\s*=\s*(?P<C>\d+)$`. -/
def matchLoadConst (s : List Char) : Option (Nat × Nat) :=
  match rEqPrefix s with
  | none => none
  | some (b, s1) =>
    match parseDigits s1 with
    | none => none
    | some (c, s2) => if s2.isEmpty then some (b, c) else none

/-- `READ_RE = ^r(?P<B>\d+)\s*=\s*mem\[\s*r(?P<C>\d+)\s*]$`. -/
def matchRead (s : List Char) : Option (Nat × Nat) :=
  match rEqPrefix s with
  | none => none
  | some (b, s1) =>
    match memRegPrefix s1 with
    | none => none
    | some (c, s2) =>
      match expectChar ']' s2 with
      | none => none
      | some s3 => if s3.isEmpty then some (b, c) else none

/-- `WRITE_RE = ^mem\[\s*r(?P<B>\d+)\s*]\s*=\s*r(?P<C>\d+)$`. -/
def matchWrite (s : List Char) : Option (Nat × Nat) :=
  match memRegPrefix s with
  | none => none
  | some (b, s1) =>
    match expectChar ']' s1 with
    | none => none
    | some s2 =>
      match expectChar '=' (skipWs s2) with
      | none => none
      | some s3 =>
        match expectChar 'r' (skipWs s3) with
        | none => none
        | some s4 =>
          match parseDigits s4 with
          | none => none
          | some (c, s5) => if s5.isEmpty then some (b, c) else none

/-- `SUB_RE = ^mem\[\s*r(?P<C>\d+)\s*\+\s*(?P<B>\d+)\s*]\s*-\=\s*r(?P<D>\d+)$`. -/
def matchSub (s : List Char) : Option (Nat × Nat × Nat) :=
  match subAddrPrefix s with
  | none => none
  | some (c, b, s1) =>
    match expectStr ['-', '='] s1 with
    | none => none
    | some s2 =>
      match expectChar 'r' (skipWs s2) with
      | none => none
      | some s3 =>
        match parseDigits s3 with
        | none => none
        | some (d, s4) => if s4.isEmpty then some (c, b, d) else none

/-- `SUB_EQ_RE =
`^mem\[\s*r(?P<C>\d+)\s*\+\s*(?P<B>\d+)\s*]\s*=\s*mem\[\s*r(?P<C2>\d+)\s*\+\s*(?P<B2>\d+)\s*]\s*-\s*r(?P<D>\d+)$`. -/
def matchSubEq (s : List Char) : Option (Nat × Nat × Nat × Nat × Nat) :=
  match subAddrPrefix s with
  | none => none
  | some (c, b, s1) =>
    match expectChar '=' s1 with
    | none => none
    | some s2 =>
      match subAddrPrefix (skipWs s2) with
      | none => none
      | some (c2, b2, s3) =>
        match expectChar '-' s3 with
        | none => none
        | some s4 =>
          match expectChar 'r' (skipWs s4) with
          | none => none
          | some s5 =>
            match parseDigits s5 with
            | none => none
            | some (d, s6) => if s6.isEmpty then some (c, b, c2, b2, d) else none

/-- `line.split("#", 1)[0]`: the text before the first `#`. -/
def beforeHash (s : List Char) : List Char := s.takeWhile (fun c => c ≠ '#')

/-- `str.strip()`: drop whitespace from both ends. -/
def pyStrip (s : List Char) : List Char :=
  (((s.dropWhile isPySpace).reverse).dropWhile isPySpace).reverse

/-- The comment-stripping and trimming `parse_line` applies before matching. -/
def prepLine (s : List Char) : List Char := pyStrip (beforeHash s)

/-- `parse_line`: strip comment and whitespace; an empty line yields no
instruction; otherwise try the five regexes in source order, building the
corresponding record (opcodes from `OPCODES`); the alternate SubMem spelling
additionally requires equal offsets and equal base registers; otherwise fail
carrying the stripped line. -/
def parse_line (line : List Char) : Except AsmError (Option Instruction) :=
  let s := prepLine line
  if s.isEmpty then .ok none
  else
    match matchLoadConst s with
    | some (b, c) => .ok (some ⟨"load_const", 14, (b : Int), some (c : Int), none⟩)
    | none =>
      match matchRead s with
      | some (b, c) => .ok (some ⟨"read_mem", 4, (b : Int), some (c : Int), none⟩)
      | none =>
        match matchWrite s with
        | some (b, c) => .ok (some ⟨"write_mem", 2, (b : Int), some (c : Int), none⟩)
        | none =>
          match matchSub s with
          | some (c, b, d) => .ok (some ⟨"sub_mem", 1, (b : Int), some (c : Int), some (d : Int)⟩)
          | none =>
            match matchSubEq s with
            | some (c, b, c2, b2, d) =>
              if b ≠ b2 ∨ c ≠ c2 then .error .subEqMismatch
              else .ok (some ⟨"sub_mem", 1, (b : Int), some (c : Int), some (d : Int)⟩)
            | none => .error (.parseError s)

/-- `str.splitlines()` restricted to `\n` separators: every newline terminates
a line and a trailing newline produces no extra empty line. -/
def py_splitlines (s : List Char) : List (List Char) :=
  match s with
  | [] => []
  | _ => go s []
where
  go : List Char → List Char → List (List Char)
    | [], acc => [acc.reverse]
    | c :: rest, acc =>
      if c = '\n' then acc.reverse :: (if rest.isEmpty then [] else go rest [])
      else go rest (c :: acc)

/-- The parse-and-collect loop of `full_asm`: parsed instructions in source
order, skipping blank/comment lines. -/
def collectIR : List (List Char) → Except AsmError (List Instruction)
  | [] => .ok []
  | line :: rest => do
    let instr ← parse_line line
    let ir ← collectIR rest
    match instr with
    | some i => .ok (i :: ir)
    | none => .ok ir

/-- `asm(ir)`: concatenation of the 3-byte encodings. -/
def asm : List Instruction → Except AsmError (List Nat)
  | [] => .ok []
  | i :: rest => do
    let bs ← i.to_bytes
    let tail ← asm rest
    .ok (bs ++ tail)

/-- `full_asm(text)`: split into lines, parse each, assemble; returns the
bytecode and the IR list. -/
def full_asm (text : List Char) : Except AsmError (List Nat × List Instruction) := do
  let ir ← collectIR (py_splitlines text)
  let bytecode ← asm ir
  .ok (bytecode, ir)

/-! ## Derived definitions used in the theorems -/

/-- The decode step the executor applies to one instruction's three bytes:
rebuild the little-endian word, take the opcode nibble and the two
`load_const`-layout fields. -/
def decode11 (bs : List Nat) (w1 w2 : Nat) : Nat × Nat × Nat :=
  let w := word3 (bs.getD 0 0) (bs.getD 1 0) (bs.getD 2 0)
  (w &&& mask 4, (w >>> 4) &&& mask w1, (w >>> 11) &&& mask w2)

/-- Decode with the `sub_mem` layout: opcode nibble, bits 4-8, 9-15, 16-22. -/
def decodeSub (bs : List Nat) : Nat × Nat × Nat × Nat :=
  let w := word3 (bs.getD 0 0) (bs.getD 1 0) (bs.getD 2 0)
  (w &&& mask 4, (w >>> 4) &&& mask 5, (w >>> 9) &&& mask 7, (w >>> 16) &&& mask 7)

/-- The six-line demo program. -/
def demoProgram : List Char :=
  "r0=0\nr1=10\nmem[r0]=r1\nr2=3\nmem[r0+0]-=r2\nr3=mem[r0]".data

/-- A program whose final instruction accesses a negative address:
`r1 = 5; mem[r0+0] -= r1` (drives `memory[0]` to `-5`);
`r2 = mem[r0]` (so `r2 = -5`); `r3 = 7`; `mem[r2+0] -= r3` (address `-5`). -/
def progNegAddr : List Nat :=
  [30, 40, 0,   1, 0, 1,   36, 0, 0,   62, 56, 0,   1, 4, 3]

/-! ## Helper lemmas -/

theorem bind_ok_eq {ε α β : Type} (a : α) (f : α → Except ε β) :
    ((Except.ok a : Except ε α) >>= f) = f a := rfl

theorem bind_err_eq {ε α β : Type} (e : ε) (f : α → Except ε β) :
    ((Except.error e : Except ε α) >>= f) = .error e := rfl

theorem map_ok_eq {ε α β : Type} (f : α → β) (a : α) :
    (Except.ok a : Except ε α).map f = .ok (f a) := rfl

theorem map_err_eq {ε α β : Type} (f : α → β) (e : ε) :
    (Except.error e : Except ε α).map f = .error e := rfl

theorem mask_eq (n : Nat) : mask n = 2 ^ n - 1 := by
  unfold mask; rw [Nat.one_shiftLeft]

/-- `x &&& mask n` is `x % 2 ^ n`: this is how the executor's field
extraction relates to plain arithmetic. -/
theorem and_mask_eq_mod (x n : Nat) : x &&& mask n = x % 2 ^ n := by
  rw [mask_eq, Nat.and_pow_two_sub_one_eq_mod]

/-- Packing a value above already-placed low bits is plain addition. -/
theorem or_shiftLeft_eq_add {a : Nat} (k b : Nat) (h : a < 2 ^ k) :
    a ||| (b <<< k) = a + b * 2 ^ k := by
  rw [Nat.shiftLeft_eq, Nat.or_comm, mul_comm b (2 ^ k),
    ← Nat.mul_add_lt_is_or h (b := a) (a := b), Nat.add_comm]

theorem ensure_range_nat (v bits : Nat) (name : String) (h : v < 2 ^ bits) :
    _ensure_range (v : Int) bits name = .ok () := by
  unfold _ensure_range
  rw [if_pos]
  refine ⟨Int.natCast_nonneg v, ?_⟩
  have hv : v ≤ mask bits := by rw [mask_eq]; omega
  exact_mod_cast hv

theorem int_to_bytes3_lt (c : Nat) (h : c < 16777216) :
    int_to_bytes3 c = .ok [c % 256, c / 256 % 256, c / 65536 % 256] := by
  unfold int_to_bytes3; rw [if_pos h]

/-- Reassembling the three little-endian bytes of a 24-bit value gives it back. -/
theorem word3_bytes (c : Nat) (h : c < 16777216) :
    word3 (c % 256) (c / 256 % 256) (c / 65536 % 256) = c := by
  unfold word3; omega

/-- The packed `load_const`/`read_mem`/`write_mem` word, as arithmetic:
`A | B << 4 | C << 11 = A + B*2^4 + C*2^11` for a 4-bit `A` and 7-bit `B`. -/
theorem pack11_eq_add (a b c : Nat) (ha : a < 16) (hb : b < 128) :
    a ||| (b <<< 4) ||| (c <<< 11) = a + b * 16 + c * 2048 := by
  rw [or_shiftLeft_eq_add 4 b (by omega),
    or_shiftLeft_eq_add 11 c (by norm_num; omega)]
  norm_num

/-- The packed `sub_mem` word, as arithmetic. -/
theorem pack_sub_eq_add (a b c d : Nat) (ha : a < 16) (hb : b < 32) (hc : c < 128) :
    a ||| (b <<< 4) ||| (c <<< 9) ||| (d <<< 16) = a + b * 16 + c * 512 + d * 65536 := by
  rw [or_shiftLeft_eq_add 4 b (by omega),
    or_shiftLeft_eq_add 9 c (by norm_num; omega),
    or_shiftLeft_eq_add 16 d (by norm_num; omega)]
  norm_num

/-! ## C1 : encode/decode round-trip -/

theorem to_bytes_load_const (b c : Int) :
    (Instruction.mk "load_const" 14 b (some c) none).to_bytes =
      (_ensure_range b 7 "B (reg)" >>= fun _ =>
        _ensure_range c 12 "C (const)" >>= fun _ =>
        int_to_bytes3 (14 ||| (b.toNat <<< 4) ||| (c.toNat <<< 11))) := rfl

theorem to_bytes_read_mem (b c : Int) :
    (Instruction.mk "read_mem" 4 b (some c) none).to_bytes =
      (_ensure_range b 7 "B (dst reg)" >>= fun _ =>
        _ensure_range c 7 "C (addr reg)" >>= fun _ =>
        int_to_bytes3 (4 ||| (b.toNat <<< 4) ||| (c.toNat <<< 11))) := rfl

theorem to_bytes_write_mem (b c : Int) :
    (Instruction.mk "write_mem" 2 b (some c) none).to_bytes =
      (_ensure_range b 7 "B (addr reg)" >>= fun _ =>
        _ensure_range c 7 "C (src reg)" >>= fun _ =>
        int_to_bytes3 (2 ||| (b.toNat <<< 4) ||| (c.toNat <<< 11))) := rfl

theorem to_bytes_sub_mem (b c d : Int) :
    (Instruction.mk "sub_mem" 1 b (some c) (some d)).to_bytes =
      (_ensure_range b 5 "B (offset)" >>= fun _ =>
        _ensure_range c 7 "C (base reg)" >>= fun _ =>
        _ensure_range d 7 "D (src reg)" >>= fun _ =>
        int_to_bytes3 (1 ||| (b.toNat <<< 4) ||| (c.toNat <<< 9) ||| (d.toNat <<< 16))) := rfl

/-- C1: for every in-range instruction record, packing it to its 3-byte
little-endian word and extracting the opcode nibble and the field bit ranges
the way the executor does recovers the opcode and all original fields:
`LoadConst` (reg 7 bits, const 12 bits), `ReadMem`/`WriteMem` (both operand
registers 7 bits), `SubMem` (offset 5 bits, base 7 bits, src 7 bits). -/
theorem claim_C1_roundtrip :
    (∀ b c : Nat, b < 128 → c < 4096 →
      ((Instruction.mk "load_const" 14 (b : Int) (some (c : Int)) none).to_bytes).map
        (fun bs => decode11 bs 7 12) = .ok (14, b, c)) ∧
    (∀ b c : Nat, b < 128 → c < 128 →
      ((Instruction.mk "read_mem" 4 (b : Int) (some (c : Int)) none).to_bytes).map
        (fun bs => decode11 bs 7 7) = .ok (4, b, c)) ∧
    (∀ b c : Nat, b < 128 → c < 128 →
      ((Instruction.mk "write_mem" 2 (b : Int) (some (c : Int)) none).to_bytes).map
        (fun bs => decode11 bs 7 7) = .ok (2, b, c)) ∧
    (∀ b c d : Nat, b < 32 → c < 128 → d < 128 →
      ((Instruction.mk "sub_mem" 1 (b : Int) (some (c : Int)) (some (d : Int))).to_bytes).map
        (fun bs => decodeSub bs) = .ok (1, b, c, d)) := by
  refine ⟨?_, ?_, ?_, ?_⟩
  · intro b c hb hc
    rw [to_bytes_load_const, ensure_range_nat _ _ _ (by norm_num; omega), bind_ok_eq,
      ensure_range_nat _ _ _ (by norm_num; omega), bind_ok_eq]
    rw [Int.toNat_natCast, Int.toNat_natCast, pack11_eq_add _ _ _ (by omega) hb,
      int_to_bytes3_lt _ (by omega), map_ok_eq]
    simp only [decode11, List.getD_cons_zero, List.getD_cons_succ, Except.ok.injEq,
      Prod.mk.injEq]
    rw [word3_bytes _ (by omega : 14 + b * 16 + c * 2048 < 16777216)]
    rw [and_mask_eq_mod, and_mask_eq_mod, and_mask_eq_mod,
      Nat.shiftRight_eq_div_pow, Nat.shiftRight_eq_div_pow]
    omega
  · intro b c hb hc
    rw [to_bytes_read_mem, ensure_range_nat _ _ _ (by norm_num; omega), bind_ok_eq,
      ensure_range_nat _ _ _ (by norm_num; omega), bind_ok_eq]
    rw [Int.toNat_natCast, Int.toNat_natCast, pack11_eq_add _ _ _ (by omega) hb,
      int_to_bytes3_lt _ (by omega), map_ok_eq]
    simp only [decode11, List.getD_cons_zero, List.getD_cons_succ, Except.ok.injEq,
      Prod.mk.injEq]
    rw [word3_bytes _ (by omega : 4 + b * 16 + c * 2048 < 16777216)]
    rw [and_mask_eq_mod, and_mask_eq_mod, and_mask_eq_mod,
      Nat.shiftRight_eq_div_pow, Nat.shiftRight_eq_div_pow]
    omega
  · intro b c hb hc
    rw [to_bytes_write_mem, ensure_range_nat _ _ _ (by norm_num; omega), bind_ok_eq,
      ensure_range_nat _ _ _ (by norm_num; omega), bind_ok_eq]
    rw [Int.toNat_natCast, Int.toNat_natCast, pack11_eq_add _ _ _ (by omega) hb,
      int_to_bytes3_lt _ (by omega), map_ok_eq]
    simp only [decode11, List.getD_cons_zero, List.getD_cons_succ, Except.ok.injEq,
      Prod.mk.injEq]
    rw [word3_bytes _ (by omega : 2 + b * 16 + c * 2048 < 16777216)]
    rw [and_mask_eq_mod, and_mask_eq_mod, and_mask_eq_mod,
      Nat.shiftRight_eq_div_pow, Nat.shiftRight_eq_div_pow]
    omega
  · intro b c d hb hc hd
    rw [to_bytes_sub_mem, ensure_range_nat _ _ _ (by norm_num; omega), bind_ok_eq,
      ensure_range_nat _ _ _ (by norm_num; omega), bind_ok_eq,
      ensure_range_nat _ _ _ (by norm_num; omega), bind_ok_eq]
    rw [Int.toNat_natCast, Int.toNat_natCast, Int.toNat_natCast,
      pack_sub_eq_add _ _ _ _ (by omega) hb hc,
      int_to_bytes3_lt _ (by omega), map_ok_eq]
    simp only [decodeSub, List.getD_cons_zero, List.getD_cons_succ, Except.ok.injEq,
      Prod.mk.injEq]
    rw [word3_bytes _ (by omega : 1 + b * 16 + c * 512 + d * 65536 < 16777216)]
    rw [and_mask_eq_mod, and_mask_eq_mod, and_mask_eq_mod, and_mask_eq_mod,
      Nat.shiftRight_eq_div_pow, Nat.shiftRight_eq_div_pow, Nat.shiftRight_eq_div_pow]
    omega

/-- C1 witness at concrete in-range fields. -/
theorem claim_C1_roundtrip_witness :
    ((Instruction.mk "load_const" 14 (34 : Int) (some (686 : Int)) none).to_bytes).map
        (fun bs => decode11 bs 7 12) = .ok (14, 34, 686) ∧
    ((Instruction.mk "sub_mem" 1 (3 : Int) (some (13 : Int)) (some (94 : Int))).to_bytes).map
        (fun bs => decodeSub bs) = .ok (1, 3, 13, 94) :=
  ⟨claim_C1_roundtrip.1 34 686 (by decide) (by decide),
   claim_C1_roundtrip.2.2.2 3 13 94 (by decide) (by decide) (by decide)⟩

/-! ## C2 : literal encodings -/

/-- C2: the four literal encodings demanded by the spec (and asserted by the
source's own `test()`): `LoadConst reg=34 const=686 -> 2E 72 15`,
`ReadMem dst=103 addr=29 -> 74 EE 00`, `WriteMem addr=74 src=62 -> A2 F4 01`,
`SubMem offset=3 base=13 src=94 -> 31 1A 5E`. -/
theorem claim_C2_literal_encodings :
    (Instruction.mk "load_const" 14 34 (some 686) none).to_bytes = .ok [0x2E, 0x72, 0x15] ∧
    (Instruction.mk "read_mem" 4 103 (some 29) none).to_bytes = .ok [0x74, 0xEE, 0x00] ∧
    (Instruction.mk "write_mem" 2 74 (some 62) none).to_bytes = .ok [0xA2, 0xF4, 0x01] ∧
    (Instruction.mk "sub_mem" 1 3 (some 13) (some 94)).to_bytes = .ok [0x31, 0x1A, 0x5E] :=
  ⟨rfl, rfl, rfl, rfl⟩

/-! ## C3 : end-to-end demo program -/

/-- C3: the demo program assembles to 6 instruction records (18 bytes), and
executing the bytecode from the all-zero initial state ends with
`memory[0] = 7` and `registers[3] = 7`. -/
theorem claim_C3_end_to_end :
    (full_asm demoProgram).map (fun p => (p.2.length, p.1.length)) = .ok (6, 18) ∧
    (full_asm demoProgram).map
      (fun p => (execute p.1).map (fun rm => (rm.2.getD 0 0, rm.1.getD 3 0)))
      = .ok (.ok (7, 7)) :=
  ⟨rfl, rfl⟩

/-! ## C10 : negative addresses index from the end of memory -/

/-- C10: a register can come to hold a negative value (here `r2 = -5`, read
back from a cell driven negative by SubMem), and a subsequent SubMem then
computes the negative address `-5`; the executor neither fails nor grows
memory (final length is still 256) but subtracts into the cell at index
`256 + (-5) = 251`, i.e. counted from the end of the store. -/
theorem claim_C10_negative_address :
    (execute progNegAddr).map
      (fun rm => (rm.1.getD 2 0, rm.2.length, rm.2.getD 251 0, rm.2.getD 0 0))
      = .ok (-5, 256, -7, -5) := rfl

/-! ## Interpreter loop lemmas (for C4, C6, C7) -/

theorem pyGet_error {l : List Int} {i : Int} {e : VMError} (h : pyGet l i = .error e) :
    e = .indexError := by
  unfold pyGet at h
  cases hp : pyIndex l.length i with
  | some n => rw [hp] at h; exact absurd h (by simp)
  | none => rw [hp] at h; cases h; rfl

theorem pySet_error {l : List Int} {i v : Int} {e : VMError} (h : pySet l i v = .error e) :
    e = .indexError := by
  unfold pySet at h
  cases hp : pyIndex l.length i with
  | some n => rw [hp] at h; exact absurd h (by simp)
  | none => rw [hp] at h; cases h; rfl

theorem pySet_length {l : List Int} {i v : Int} {l' : List Int} (h : pySet l i v = .ok l') :
    l'.length = l.length := by
  unfold pySet at h
  cases hp : pyIndex l.length i with
  | some n => rw [hp] at h; cases h; exact List.length_set ..
  | none => rw [hp] at h; exact absurd h (by simp)

/-- Growing never shrinks the store. -/
theorem ensure_memory_size_le (memory : List Int) (addr : Int) :
    memory.length ≤ (ensure_memory_size memory addr).length := by
  unfold ensure_memory_size
  split
  · simp
  · exact Nat.le_refl _

/-- A single interpreter step never shrinks the memory. -/
theorem execStep_mem_mono {regs memory : List Int} {cmd : Nat} {regs' memory' : List Int}
    (h : execStep regs memory cmd = .ok (regs', memory')) :
    memory.length ≤ memory'.length := by
  simp only [execStep] at h
  split at h
  · cases h; exact Nat.le_refl _
  · split at h
    · cases hg : pyGet (ensure_memory_size memory (regs.getD ((cmd >>> 11) &&& mask 7) 0))
          (regs.getD ((cmd >>> 11) &&& mask 7) 0) with
      | ok v =>
        rw [hg, bind_ok_eq] at h
        cases h
        exact ensure_memory_size_le ..
      | error e => rw [hg, bind_err_eq] at h; exact absurd h (by simp)
    · split at h
      · cases hs : pySet (ensure_memory_size memory (regs.getD ((cmd >>> 4) &&& mask 7) 0))
            (regs.getD ((cmd >>> 4) &&& mask 7) 0)
            (regs.getD ((cmd >>> 11) &&& mask 7) 0) with
        | ok m2 =>
          rw [hs, bind_ok_eq] at h
          cases h
          exact Nat.le_trans (ensure_memory_size_le ..) (Nat.le_of_eq (pySet_length hs).symm)
        | error e => rw [hs, bind_err_eq] at h; exact absurd h (by simp)
      · split at h
        · cases hg : pyGet
              (ensure_memory_size memory (regs.getD ((cmd >>> 9) &&& mask 7) 0
                + (((cmd >>> 4) &&& mask 5 : Nat) : Int)))
              (regs.getD ((cmd >>> 9) &&& mask 7) 0 + (((cmd >>> 4) &&& mask 5 : Nat) : Int)) with
          | ok v =>
            rw [hg, bind_ok_eq] at h
            cases hs : pySet
                (ensure_memory_size memory (regs.getD ((cmd >>> 9) &&& mask 7) 0
                  + (((cmd >>> 4) &&& mask 5 : Nat) : Int)))
                (regs.getD ((cmd >>> 9) &&& mask 7) 0 + (((cmd >>> 4) &&& mask 5 : Nat) : Int))
                (v - regs.getD ((cmd >>> 16) &&& mask 7) 0) with
            | ok m2 =>
              rw [hs, bind_ok_eq] at h
              cases h
              exact Nat.le_trans (ensure_memory_size_le ..) (Nat.le_of_eq (pySet_length hs).symm)
            | error e => rw [hs, bind_err_eq] at h; exact absurd h (by simp)
          | error e => rw [hg, bind_err_eq] at h; exact absurd h (by simp)
        · exact absurd h (by simp)

/-- The interpreter loop never shrinks the memory. -/
theorem execLoop_mem_mono :
    ∀ (bc : List Nat) (regs memory regs' memory' : List Int),
      execLoop bc regs memory = .ok (regs', memory') → memory.length ≤ memory'.length := by
  have H : ∀ (n : Nat) (bc : List Nat), bc.length ≤ n →
      ∀ (regs memory regs' memory' : List Int),
        execLoop bc regs memory = .ok (regs', memory') → memory.length ≤ memory'.length := by
    intro n
    induction n with
    | zero =>
      intro bc hlen regs memory regs' memory' h
      have : bc = [] := List.length_eq_zero.mp (Nat.le_zero.mp hlen)
      subst this
      cases h
      exact Nat.le_refl _
    | succ n ih =>
      intro bc hlen regs memory regs' memory' h
      match bc with
      | [] => cases h; exact Nat.le_refl _
      | [b0] => cases h; exact Nat.le_refl _
      | [b0, b1] => cases h; exact Nat.le_refl _
      | b0 :: b1 :: b2 :: rest =>
        rw [execLoop] at h
        cases hs : execStep regs memory (word3 b0 b1 b2) with
        | ok rm =>
          rw [hs] at h
          exact Nat.le_trans (execStep_mem_mono hs)
            (ih rest (by simp at hlen; omega) rm.1 rm.2 regs' memory' h)
        | error e => rw [hs] at h; exact absurd h (by simp)
  intro bc
  exact H bc.length bc (Nat.le_refl _)

/-- The step function never raises the bytecode-format error. -/
theorem execStep_ne_format {regs memory : List Int} {cmd : Nat} :
    execStep regs memory cmd ≠ .error .formatError := by
  intro h
  simp only [execStep] at h
  split at h
  · exact absurd h (by simp)
  · split at h
    · cases hg : pyGet (ensure_memory_size memory (regs.getD ((cmd >>> 11) &&& mask 7) 0))
          (regs.getD ((cmd >>> 11) &&& mask 7) 0) with
      | ok v => rw [hg, bind_ok_eq] at h; exact absurd h (by simp)
      | error e =>
        rw [hg, bind_err_eq] at h
        cases h
        exact absurd (pyGet_error hg) (by simp)
    · split at h
      · cases hs : pySet (ensure_memory_size memory (regs.getD ((cmd >>> 4) &&& mask 7) 0))
            (regs.getD ((cmd >>> 4) &&& mask 7) 0)
            (regs.getD ((cmd >>> 11) &&& mask 7) 0) with
        | ok m2 => rw [hs, bind_ok_eq] at h; exact absurd h (by simp)
        | error e =>
          rw [hs, bind_err_eq] at h
          cases h
          exact absurd (pySet_error hs) (by simp)
      · split at h
        · cases hg : pyGet
              (ensure_memory_size memory (regs.getD ((cmd >>> 9) &&& mask 7) 0
                + (((cmd >>> 4) &&& mask 5 : Nat) : Int)))
              (regs.getD ((cmd >>> 9) &&& mask 7) 0 + (((cmd >>> 4) &&& mask 5 : Nat) : Int)) with
          | ok v =>
            rw [hg, bind_ok_eq] at h
            cases hs : pySet
                (ensure_memory_size memory (regs.getD ((cmd >>> 9) &&& mask 7) 0
                  + (((cmd >>> 4) &&& mask 5 : Nat) : Int)))
                (regs.getD ((cmd >>> 9) &&& mask 7) 0 + (((cmd >>> 4) &&& mask 5 : Nat) : Int))
                (v - regs.getD ((cmd >>> 16) &&& mask 7) 0) with
            | ok m2 => rw [hs, bind_ok_eq] at h; exact absurd h (by simp)
            | error e =>
              rw [hs, bind_err_eq] at h
              cases h
              exact absurd (pySet_error hs) (by simp)
          | error e =>
            rw [hg, bind_err_eq] at h
            cases h
            exact absurd (pyGet_error hg) (by simp)
        · cases h

/-- The loop never raises the format error: that error has exactly one raise
site, the length check that precedes the loop. -/
theorem execLoop_ne_format :
    ∀ (bc : List Nat) (regs memory : List Int),
      execLoop bc regs memory ≠ .error .formatError := by
  have H : ∀ (n : Nat) (bc : List Nat), bc.length ≤ n → ∀ (regs memory : List Int),
      execLoop bc regs memory ≠ .error .formatError := by
    intro n
    induction n with
    | zero =>
      intro bc hlen regs memory h
      have : bc = [] := List.length_eq_zero.mp (Nat.le_zero.mp hlen)
      subst this
      cases h
    | succ n ih =>
      intro bc hlen regs memory h
      match bc with
      | [] => cases h
      | [b0] => cases h
      | [b0, b1] => cases h
      | b0 :: b1 :: b2 :: rest =>
        rw [execLoop] at h
        cases hs : execStep regs memory (word3 b0 b1 b2) with
        | ok rm =>
          rw [hs] at h
          exact ih rest (by simp at hlen; omega) rm.1 rm.2 h
        | error e =>
          rw [hs] at h
          cases h
          exact execStep_ne_format hs
  intro bc
  exact H bc.length bc (Nat.le_refl _)

/-! ## C6 : bytecode length format guard -/

/-- C6: a bytecode buffer whose length is not a multiple of 3 makes `execute`
fail with the format error — the same error for every such buffer, before any
instruction effect exists; and for every buffer whose length is a multiple of
3 (including the empty buffer), the format check passes (the run never reports
the format error). -/
theorem claim_C6_format_guard :
    (∀ bc : List Nat, bc.length % 3 ≠ 0 → execute bc = .error .formatError) ∧
    (∀ bc : List Nat, bc.length % 3 = 0 → execute bc ≠ .error .formatError) := by
  constructor
  · intro bc h
    unfold execute
    rw [if_neg h]
  · intro bc h
    unfold execute
    rw [if_pos h]
    exact execLoop_ne_format bc _ _

/-- C6 witness: a 2-byte buffer is rejected as a format error; the empty
buffer and a 3-byte buffer pass the format check. -/
theorem claim_C6_format_guard_witness :
    execute [7, 7] = .error .formatError ∧
    execute ([] : List Nat) ≠ .error .formatError ∧
    execute [30, 40, 0] ≠ .error .formatError :=
  ⟨claim_C6_format_guard.1 [7, 7] (by decide),
   claim_C6_format_guard.2 [] (by decide),
   claim_C6_format_guard.2 [30, 40, 0] (by decide)⟩

/-! ## C7 : unknown-opcode decode failure -/

/-- An unknown opcode nibble makes the step fail, the error carrying the
opcode value (and nothing else: the raise site's message is
`f"Неизвестный opcode: {opcode}"`). -/
theorem execStep_bad_opcode (regs memory : List Int) (cmd : Nat)
    (h14 : cmd &&& mask 4 ≠ 14) (h4 : cmd &&& mask 4 ≠ 4)
    (h2 : cmd &&& mask 4 ≠ 2) (h1 : cmd &&& mask 4 ≠ 1) :
    execStep regs memory cmd = .error (.decodeError (cmd &&& mask 4)) := by
  simp only [execStep]
  rw [if_neg h14, if_neg h4, if_neg h2, if_neg h1]

/-- Splitting a run at an instruction boundary: if the first part of the
buffer cuts at a multiple of 3, the loop processes it first and continues
with the rest from the reached state. -/
theorem execLoop_append :
    ∀ (bc : List Nat), bc.length % 3 = 0 → ∀ (tail : List Nat) (regs memory : List Int),
      execLoop (bc ++ tail) regs memory =
        (match execLoop bc regs memory with
         | .ok (r, m) => execLoop tail r m
         | .error e => .error e) := by
  have H : ∀ (n : Nat) (bc : List Nat), bc.length ≤ n → bc.length % 3 = 0 →
      ∀ (tail : List Nat) (regs memory : List Int),
        execLoop (bc ++ tail) regs memory =
          (match execLoop bc regs memory with
           | .ok (r, m) => execLoop tail r m
           | .error e => .error e) := by
    intro n
    induction n with
    | zero =>
      intro bc hlen _ tail regs memory
      have : bc = [] := List.length_eq_zero.mp (Nat.le_zero.mp hlen)
      subst this
      rfl
    | succ n ih =>
      intro bc hlen h3 tail regs memory
      match bc with
      | [] => rfl
      | [b0] => simp at h3
      | [b0, b1] => simp at h3
      | b0 :: b1 :: b2 :: rest =>
        rw [List.cons_append, List.cons_append, List.cons_append, execLoop]
        conv_rhs => rw [execLoop]
        cases hs : execStep regs memory (word3 b0 b1 b2) with
        | ok rm =>
          cases rm with
          | mk r m =>
            dsimp only
            exact ih rest (by simp at hlen; omega) (by simp at h3 ⊢; omega) tail r m
        | error e => rfl
  intro bc h3
  exact H bc.length bc (Nat.le_refl _) h3

/-- C7 counterexample: the decode failure does NOT identify the byte offset of
the offending word.  Two buffers whose only bad word (opcode nibble 5) sits at
byte offset 0 and at byte offset 3 respectively produce the very same error
value, carrying the opcode only — so the error cannot identify the offset. -/
theorem claim_C7_counterexample :
    execute [5, 0, 0] = .error (.decodeError 5) ∧
    execute [0x0E, 0, 0, 5, 0, 0] = .error (.decodeError 5) ∧
    execute [5, 0, 0] = execute [0x0E, 0, 0, 5, 0, 0] :=
  ⟨rfl, rfl, rfl⟩

/-- C7 (amended): a 3-byte word whose opcode nibble is not one of
`{14, 4, 2, 1}` makes the executor fail with a decode error identifying the
offending opcode value (but not the byte offset, which the error does not
carry); the instructions preceding the bad word are executed first, the
failure surfacing only when the loop reaches it. -/
theorem claim_C7_amended_decode_error :
    ∀ (good rest : List Nat) (b0 b1 b2 : Nat) (regs memory : List Int),
      good.length % 3 = 0 → rest.length % 3 = 0 →
      execLoop good (List.replicate 128 0) (List.replicate 256 0) = .ok (regs, memory) →
      word3 b0 b1 b2 &&& mask 4 ≠ 14 → word3 b0 b1 b2 &&& mask 4 ≠ 4 →
      word3 b0 b1 b2 &&& mask 4 ≠ 2 → word3 b0 b1 b2 &&& mask 4 ≠ 1 →
      execute (good ++ b0 :: b1 :: b2 :: rest)
        = .error (.decodeError (word3 b0 b1 b2 &&& mask 4)) := by
  intro good rest b0 b1 b2 regs memory h3g h3r hgood h14 h4 h2 h1
  unfold execute
  rw [if_pos (by simp; omega)]
  rw [execLoop_append good h3g]
  rw [hgood]
  dsimp only
  rw [execLoop, execStep_bad_opcode _ _ _ h14 h4 h2 h1]

/-- C7 witness: one valid `load_const` followed by an opcode-5 word fails with
the decode error carrying opcode 5. -/
theorem claim_C7_amended_decode_error_witness :
    execute [0x0E, 0, 0, 5, 0, 0] = .error (.decodeError 5) := by
  have h := claim_C7_amended_decode_error [0x0E, 0, 0] [] 5 0 0
    ((List.replicate 128 (0 : Int)).set 0 0) (List.replicate 256 0)
    (by decide) (by decide) rfl (by decide) (by decide) (by decide) (by decide)
  simpa using h

/-! ## C4 : memory growth discipline -/

/-- C4: for an access at address `k` at or beyond the current length the store
is extended to exactly `k + 1` cells, the new cells zero and the old cells
untouched; an access below the current length leaves the store untouched (in
particular its length); and across a whole run the memory length never
decreases. -/
theorem claim_C4_memory_growth :
    (∀ (memory : List Int) (k : Nat), memory.length ≤ k →
      (ensure_memory_size memory (k : Int)).length = k + 1) ∧
    (∀ (memory : List Int) (k : Nat), memory.length ≤ k →
      ∀ i : Nat, i < memory.length →
        (ensure_memory_size memory (k : Int)).getD i 0 = memory.getD i 0) ∧
    (∀ (memory : List Int) (k : Nat), memory.length ≤ k →
      ∀ i : Nat, memory.length ≤ i → i ≤ k →
        (ensure_memory_size memory (k : Int)).getD i 0 = 0) ∧
    (∀ (memory : List Int) (addr : Int), addr < (memory.length : Int) →
      ensure_memory_size memory addr = memory) ∧
    (∀ (bc : List Nat) (regs memory regs' memory' : List Int),
      execLoop bc regs memory = .ok (regs', memory') →
      memory.length ≤ memory'.length) := by
  refine ⟨?_, ?_, ?_, ?_, fun bc r m r' m' h => execLoop_mem_mono bc r m r' m' h⟩
  · intro memory k hk
    unfold ensure_memory_size
    rw [if_pos (by exact_mod_cast hk)]
    rw [List.length_append, List.length_replicate]
    omega
  · intro memory k hk i hi
    unfold ensure_memory_size
    rw [if_pos (by exact_mod_cast hk)]
    rw [List.getD_eq_getElem?_getD, List.getD_eq_getElem?_getD,
      List.getElem?_append_left hi]
  · intro memory k hk i hlo hhi
    unfold ensure_memory_size
    rw [if_pos (by exact_mod_cast hk)]
    rw [List.getD_eq_getElem?_getD, List.getElem?_append_right hlo,
      List.getElem?_replicate_of_lt (by omega)]
    rfl
  · intro memory addr h
    unfold ensure_memory_size
    rw [if_neg (by omega)]

/-- C4 witness: growing a 2-cell store for an access at address 5, an
untouched access at address 0, and a concrete completed run. -/
theorem claim_C4_memory_growth_witness :
    (ensure_memory_size [8, 9] (5 : Int)).length = 6 ∧
    (ensure_memory_size [8, 9] (5 : Int)).getD 1 0 = 9 ∧
    (ensure_memory_size [8, 9] (5 : Int)).getD 4 0 = 0 ∧
    ensure_memory_size [8, 9] (0 : Int) = [8, 9] ∧
    ([] : List Int).length ≤ ([] : List Int).length :=
  ⟨claim_C4_memory_growth.1 [8, 9] 5 (by decide),
   claim_C4_memory_growth.2.1 [8, 9] 5 (by decide) 1 (by decide),
   claim_C4_memory_growth.2.2.1 [8, 9] 5 (by decide) 4 (by decide) (by decide),
   claim_C4_memory_growth.2.2.2.1 [8, 9] 0 (by decide),
   claim_C4_memory_growth.2.2.2.2 [] [] [] [] [] rfl⟩

/-! ## C5 : encode-time range enforcement -/

theorem ensure_range_ok {v : Int} {bits : Nat} (name : String)
    (h : 0 ≤ v ∧ v ≤ (mask bits : Int)) : _ensure_range v bits name = .ok () := by
  unfold _ensure_range
  rw [if_pos h]

theorem ensure_range_fail {v : Int} {bits : Nat} (name : String)
    (h : ¬(0 ≤ v ∧ v ≤ (mask bits : Int))) :
    _ensure_range v bits name = .error (.rangeError name v bits) := by
  unfold _ensure_range
  rw [if_neg h]

theorem mask5_int : ((mask 5 : Nat) : Int) = 31 := by norm_num [mask_eq]
theorem mask7_int : ((mask 7 : Nat) : Int) = 127 := by norm_num [mask_eq]
theorem mask12_int : ((mask 12 : Nat) : Int) = 4095 := by norm_num [mask_eq]

/-- C5: for every instruction kind, encoding succeeds whenever every field
lies within `[0, 2^width - 1]` (widths: LoadConst 7/12, ReadMem and WriteMem
7/7, SubMem 5/7/7), and a field outside that interval — one past the maximum
or negative — makes encoding fail with the range error naming that field, its
value and its width (fields are checked in source order, so the error names
the first offending field). -/
theorem claim_C5_range_enforcement :
    (∀ b c : Int, 0 ≤ b ∧ b ≤ 127 → 0 ≤ c ∧ c ≤ 4095 →
      ∃ bs, (Instruction.mk "load_const" 14 b (some c) none).to_bytes = .ok bs) ∧
    (∀ b c : Int, ¬(0 ≤ b ∧ b ≤ 127) →
      (Instruction.mk "load_const" 14 b (some c) none).to_bytes
        = .error (.rangeError "B (reg)" b 7)) ∧
    (∀ b c : Int, 0 ≤ b ∧ b ≤ 127 → ¬(0 ≤ c ∧ c ≤ 4095) →
      (Instruction.mk "load_const" 14 b (some c) none).to_bytes
        = .error (.rangeError "C (const)" c 12)) ∧
    (∀ b c : Int, 0 ≤ b ∧ b ≤ 127 → 0 ≤ c ∧ c ≤ 127 →
      ∃ bs, (Instruction.mk "read_mem" 4 b (some c) none).to_bytes = .ok bs) ∧
    (∀ b c : Int, ¬(0 ≤ b ∧ b ≤ 127) →
      (Instruction.mk "read_mem" 4 b (some c) none).to_bytes
        = .error (.rangeError "B (dst reg)" b 7)) ∧
    (∀ b c : Int, 0 ≤ b ∧ b ≤ 127 → ¬(0 ≤ c ∧ c ≤ 127) →
      (Instruction.mk "read_mem" 4 b (some c) none).to_bytes
        = .error (.rangeError "C (addr reg)" c 7)) ∧
    (∀ b c : Int, 0 ≤ b ∧ b ≤ 127 → 0 ≤ c ∧ c ≤ 127 →
      ∃ bs, (Instruction.mk "write_mem" 2 b (some c) none).to_bytes = .ok bs) ∧
    (∀ b c : Int, ¬(0 ≤ b ∧ b ≤ 127) →
      (Instruction.mk "write_mem" 2 b (some c) none).to_bytes
        = .error (.rangeError "B (addr reg)" b 7)) ∧
    (∀ b c : Int, 0 ≤ b ∧ b ≤ 127 → ¬(0 ≤ c ∧ c ≤ 127) →
      (Instruction.mk "write_mem" 2 b (some c) none).to_bytes
        = .error (.rangeError "C (src reg)" c 7)) ∧
    (∀ b c d : Int, 0 ≤ b ∧ b ≤ 31 → 0 ≤ c ∧ c ≤ 127 → 0 ≤ d ∧ d ≤ 127 →
      ∃ bs, (Instruction.mk "sub_mem" 1 b (some c) (some d)).to_bytes = .ok bs) ∧
    (∀ b c d : Int, ¬(0 ≤ b ∧ b ≤ 31) →
      (Instruction.mk "sub_mem" 1 b (some c) (some d)).to_bytes
        = .error (.rangeError "B (offset)" b 5)) ∧
    (∀ b c d : Int, 0 ≤ b ∧ b ≤ 31 → ¬(0 ≤ c ∧ c ≤ 127) →
      (Instruction.mk "sub_mem" 1 b (some c) (some d)).to_bytes
        = .error (.rangeError "C (base reg)" c 7)) ∧
    (∀ b c d : Int, 0 ≤ b ∧ b ≤ 31 → 0 ≤ c ∧ c ≤ 127 → ¬(0 ≤ d ∧ d ≤ 127) →
      (Instruction.mk "sub_mem" 1 b (some c) (some d)).to_bytes
        = .error (.rangeError "D (src reg)" d 7)) := by
  refine ⟨?_, ?_, ?_, ?_, ?_, ?_, ?_, ?_, ?_, ?_, ?_, ?_, ?_⟩
  · intro b c hb hc
    rw [to_bytes_load_const, ensure_range_ok _ (by rw [mask7_int]; omega), bind_ok_eq,
      ensure_range_ok _ (by rw [mask12_int]; omega), bind_ok_eq,
      int_to_bytes3_lt _ (by
        rw [pack11_eq_add _ _ _ (by omega) (by omega)]
        omega)]
    exact ⟨_, rfl⟩
  · intro b c hb
    rw [to_bytes_load_const, ensure_range_fail _ (by rw [mask7_int]; omega), bind_err_eq]
  · intro b c hb hc
    rw [to_bytes_load_const, ensure_range_ok _ (by rw [mask7_int]; omega), bind_ok_eq,
      ensure_range_fail _ (by rw [mask12_int]; omega), bind_err_eq]
  · intro b c hb hc
    rw [to_bytes_read_mem, ensure_range_ok _ (by rw [mask7_int]; omega), bind_ok_eq,
      ensure_range_ok _ (by rw [mask7_int]; omega), bind_ok_eq,
      int_to_bytes3_lt _ (by
        rw [pack11_eq_add _ _ _ (by omega) (by omega)]
        omega)]
    exact ⟨_, rfl⟩
  · intro b c hb
    rw [to_bytes_read_mem, ensure_range_fail _ (by rw [mask7_int]; omega), bind_err_eq]
  · intro b c hb hc
    rw [to_bytes_read_mem, ensure_range_ok _ (by rw [mask7_int]; omega), bind_ok_eq,
      ensure_range_fail _ (by rw [mask7_int]; omega), bind_err_eq]
  · intro b c hb hc
    rw [to_bytes_write_mem, ensure_range_ok _ (by rw [mask7_int]; omega), bind_ok_eq,
      ensure_range_ok _ (by rw [mask7_int]; omega), bind_ok_eq,
      int_to_bytes3_lt _ (by
        rw [pack11_eq_add _ _ _ (by omega) (by omega)]
        omega)]
    exact ⟨_, rfl⟩
  · intro b c hb
    rw [to_bytes_write_mem, ensure_range_fail _ (by rw [mask7_int]; omega), bind_err_eq]
  · intro b c hb hc
    rw [to_bytes_write_mem, ensure_range_ok _ (by rw [mask7_int]; omega), bind_ok_eq,
      ensure_range_fail _ (by rw [mask7_int]; omega), bind_err_eq]
  · intro b c d hb hc hd
    rw [to_bytes_sub_mem, ensure_range_ok _ (by rw [mask5_int]; omega), bind_ok_eq,
      ensure_range_ok _ (by rw [mask7_int]; omega), bind_ok_eq,
      ensure_range_ok _ (by rw [mask7_int]; omega), bind_ok_eq,
      int_to_bytes3_lt _ (by
        rw [pack_sub_eq_add _ _ _ _ (by omega) (by omega) (by omega)]
        omega)]
    exact ⟨_, rfl⟩
  · intro b c d hb
    rw [to_bytes_sub_mem, ensure_range_fail _ (by rw [mask5_int]; omega), bind_err_eq]
  · intro b c d hb hc
    rw [to_bytes_sub_mem, ensure_range_ok _ (by rw [mask5_int]; omega), bind_ok_eq,
      ensure_range_fail _ (by rw [mask7_int]; omega), bind_err_eq]
  · intro b c d hb hc hd
    rw [to_bytes_sub_mem, ensure_range_ok _ (by rw [mask5_int]; omega), bind_ok_eq,
      ensure_range_ok _ (by rw [mask7_int]; omega), bind_ok_eq,
      ensure_range_fail _ (by rw [mask7_int]; omega), bind_err_eq]

/-- C5 witness: one success; one-past-maximum failures `2^7`, `2^5`, `2^12`;
and a negative-field failure. -/
theorem claim_C5_range_enforcement_witness :
    (∃ bs, (Instruction.mk "load_const" 14 3 (some 5) none).to_bytes = .ok bs) ∧
    (Instruction.mk "load_const" 14 128 (some 0) none).to_bytes
      = .error (.rangeError "B (reg)" 128 7) ∧
    (Instruction.mk "load_const" 14 0 (some 4096) none).to_bytes
      = .error (.rangeError "C (const)" 4096 12) ∧
    (Instruction.mk "sub_mem" 1 32 (some 0) (some 0)).to_bytes
      = .error (.rangeError "B (offset)" 32 5) ∧
    (Instruction.mk "sub_mem" 1 0 (some 0) (some (-1))).to_bytes
      = .error (.rangeError "D (src reg)" (-1) 7) :=
  ⟨claim_C5_range_enforcement.1 3 5 (by norm_num) (by norm_num),
   claim_C5_range_enforcement.2.1 128 0 (by norm_num),
   claim_C5_range_enforcement.2.2.1 0 4096 (by norm_num) (by norm_num),
   claim_C5_range_enforcement.2.2.2.2.2.2.2.2.2.2.1 32 0 0 (by norm_num),
   claim_C5_range_enforcement.2.2.2.2.2.2.2.2.2.2.2.2 0 0 (-1)
     (by norm_num) (by norm_num) (by norm_num)⟩

/-! ## Parser disjointness (for C8, C9)

`parse_line` tries the five patterns in a fixed order, so settling a claim
about a later pattern needs that the earlier patterns reject the same line.
The matchers share their left factors as common functions, which makes these
facts case analyses on the shared results. -/

theorem expectChar_eq_some {c : Char} {s t : List Char} (h : expectChar c s = some t) :
    s = c :: t := by
  cases s with
  | nil => cases h
  | cons x rest =>
    simp only [expectChar] at h
    split at h
    · next hxc => cases h; rw [hxc]
    · cases h

theorem expectStr_eq_some : ∀ {lit s t : List Char}, expectStr lit s = some t → s = lit ++ t := by
  intro lit
  induction lit with
  | nil => intro s t h; cases h; rfl
  | cons c cs ih =>
    intro s t h
    simp only [expectStr] at h
    cases he : expectChar c s with
    | none => rw [he] at h; cases h
    | some s1 =>
      rw [he] at h
      simp only [Option.bind] at h
      rw [expectChar_eq_some he, List.cons_append, ih h]

/-- A line accepted by `rEqPrefix` starts with `r`. -/
theorem rEqPrefix_head {s : List Char} {v : Nat × List Char} (h : rEqPrefix s = some v) :
    ∃ t, s = 'r' :: t := by
  unfold rEqPrefix at h
  cases he : expectChar 'r' s with
  | none => rw [he] at h; cases h
  | some s1 => exact ⟨s1, expectChar_eq_some he⟩

/-- A line accepted by `memRegPrefix` starts with `m`. -/
theorem memRegPrefix_head {s : List Char} {v : Nat × List Char}
    (h : memRegPrefix s = some v) : ∃ t, s = 'm' :: t := by
  unfold memRegPrefix at h
  cases he : expectStr ['m', 'e', 'm', '['] s with
  | none => rw [he] at h; cases h
  | some s1 => exact ⟨'e' :: 'm' :: '[' :: s1, expectStr_eq_some he⟩

theorem rEqPrefix_of_m {t : List Char} : rEqPrefix ('m' :: t) = none := by
  unfold rEqPrefix
  simp [expectChar]

theorem matchLoadConst_of_m {t : List Char} : matchLoadConst ('m' :: t) = none := by
  unfold matchLoadConst
  rw [rEqPrefix_of_m]

theorem matchRead_of_m {t : List Char} : matchRead ('m' :: t) = none := by
  unfold matchRead
  rw [rEqPrefix_of_m]

/-- What success of `subAddrPrefix` says about the shared `memRegPrefix`
factor: it succeeded, and the character after it is `+`. -/
theorem subAddrPrefix_inv {s : List Char} {v : Nat × Nat × List Char}
    (h : subAddrPrefix s = some v) :
    ∃ n u2, memRegPrefix s = some (n, '+' :: u2) := by
  unfold subAddrPrefix at h
  cases hm : memRegPrefix s with
  | none => rw [hm] at h; cases h
  | some nu =>
    rw [hm] at h
    cases nu with
    | mk n u =>
      dsimp only at h
      cases hp : expectChar '+' u with
      | none => rw [hp] at h; cases h
      | some u2 => exact ⟨n, u2, by rw [expectChar_eq_some hp]⟩

/-- A line matching `SUB_RE` or `SUB_EQ_RE` does not match `WRITE_RE`: after
the shared `mem[\s*r\d+\s*` factor the former require `+` where the latter
requires `]`. -/
theorem matchWrite_of_subAddr {s : List Char} {v : Nat × Nat × List Char}
    (h : subAddrPrefix s = some v) : matchWrite s = none := by
  obtain ⟨n, u2, hm⟩ := subAddrPrefix_inv h
  unfold matchWrite
  rw [hm]
  simp [expectChar]

/-- A line matching `SUB_EQ_RE` does not match `SUB_RE`: after the shared
`mem[\s*r\d+\s*\+\s*\d+\s*]\s*` factor the former has `=` where the latter
requires `-`. -/
theorem matchSub_of_subEq {s : List Char} {v : Nat × Nat × Nat × Nat × Nat}
    (h : matchSubEq s = some v) : matchSub s = none := by
  unfold matchSubEq at h
  cases ha : subAddrPrefix s with
  | none => rw [ha] at h; cases h
  | some cbs =>
    rw [ha] at h
    obtain ⟨c, b, s1⟩ := cbs
    dsimp only at h
    cases he : expectChar '=' s1 with
    | none => rw [he] at h; cases h
    | some s2 =>
      unfold matchSub
      rw [ha]
      dsimp only
      rw [expectChar_eq_some he]
      simp [expectStr, expectChar]

theorem matchLoadConst_head {s : List Char} {v : Nat × Nat}
    (h : matchLoadConst s = some v) : ∃ t, s = 'r' :: t := by
  unfold matchLoadConst at h
  cases hr : rEqPrefix s with
  | none => rw [hr] at h; cases h
  | some bs => exact rEqPrefix_head hr

theorem matchRead_head {s : List Char} {v : Nat × Nat}
    (h : matchRead s = some v) : ∃ t, s = 'r' :: t := by
  unfold matchRead at h
  cases hr : rEqPrefix s with
  | none => rw [hr] at h; cases h
  | some bs => exact rEqPrefix_head hr

/-- A line matching `READ_RE` does not match `LOAD_CONST_RE`: after the shared
`r\d+\s*=\s*` factor the former continues with `mem[`, which is not a digit. -/
theorem matchLoadConst_of_read {s : List Char} {v : Nat × Nat}
    (h : matchRead s = some v) : matchLoadConst s = none := by
  unfold matchRead at h
  unfold matchLoadConst
  cases hr : rEqPrefix s with
  | none => rfl
  | some bs =>
    rw [hr] at h
    obtain ⟨b, s1⟩ := bs
    dsimp only at h ⊢
    cases hm : memRegPrefix s1 with
    | none => rw [hm] at h; cases h
    | some cs =>
      obtain ⟨t, ht⟩ := memRegPrefix_head hm
      rw [ht]
      simp [parseDigits, (by decide : isPyDigit 'm' = false)]

theorem matchSub_subAddr {s : List Char} {v : Nat × Nat × Nat}
    (h : matchSub s = some v) : ∃ u, subAddrPrefix s = some u := by
  unfold matchSub at h
  cases ha : subAddrPrefix s with
  | none => rw [ha] at h; cases h
  | some u => exact ⟨u, rfl⟩

theorem matchSubEq_subAddr {s : List Char} {v : Nat × Nat × Nat × Nat × Nat}
    (h : matchSubEq s = some v) : ∃ u, subAddrPrefix s = some u := by
  unfold matchSubEq at h
  cases ha : subAddrPrefix s with
  | none => rw [ha] at h; cases h
  | some u => exact ⟨u, rfl⟩

theorem subAddrPrefix_head {s : List Char} {v : Nat × Nat × List Char}
    (h : subAddrPrefix s = some v) : ∃ t, s = 'm' :: t := by
  obtain ⟨n, u2, hm⟩ := subAddrPrefix_inv h
  exact memRegPrefix_head hm

theorem matchWrite_head {s : List Char} {v : Nat × Nat}
    (h : matchWrite s = some v) : ∃ t, s = 'm' :: t := by
  unfold matchWrite at h
  cases hm : memRegPrefix s with
  | none => rw [hm] at h; cases h
  | some bs => exact memRegPrefix_head hm

/-! ## C9 : parsing accepts any in-grammar line, range-checking is encode-time -/

/-- C9: a source line matching any of the five grammar forms parses to its
instruction record no matter how large the numeric literals are (the matcher
group values `b`, `c`, `d` below are arbitrary naturals), e.g. the concrete
line `r999 = 99999` parses even though both literals overflow their widths;
the out-of-range fields are rejected only later, by the encode-time range
check on the produced record. -/
theorem claim_C9_parse_then_encode_check :
    (∀ (line : List Char) (b c : Nat), matchLoadConst (prepLine line) = some (b, c) →
      parse_line line = .ok (some ⟨"load_const", 14, (b : Int), some (c : Int), none⟩)) ∧
    (∀ (line : List Char) (b c : Nat), matchRead (prepLine line) = some (b, c) →
      parse_line line = .ok (some ⟨"read_mem", 4, (b : Int), some (c : Int), none⟩)) ∧
    (∀ (line : List Char) (b c : Nat), matchWrite (prepLine line) = some (b, c) →
      parse_line line = .ok (some ⟨"write_mem", 2, (b : Int), some (c : Int), none⟩)) ∧
    (∀ (line : List Char) (c b d : Nat), matchSub (prepLine line) = some (c, b, d) →
      parse_line line = .ok (some ⟨"sub_mem", 1, (b : Int), some (c : Int), some (d : Int)⟩)) ∧
    (∀ (line : List Char) (c b c2 b2 d : Nat),
      matchSubEq (prepLine line) = some (c, b, c2, b2, d) → b = b2 → c = c2 →
      parse_line line = .ok (some ⟨"sub_mem", 1, (b : Int), some (c : Int), some (d : Int)⟩)) ∧
    parse_line "r999 = 99999".data
      = .ok (some ⟨"load_const", 14, (999 : Int), some (99999 : Int), none⟩) ∧
    (Instruction.mk "load_const" 14 999 (some 99999) none).to_bytes
      = .error (.rangeError "B (reg)" 999 7) := by
  refine ⟨?_, ?_, ?_, ?_, ?_, rfl, rfl⟩
  · intro line b c hm
    obtain ⟨t, hp⟩ := matchLoadConst_head hm
    rw [hp] at hm
    simp [parse_line, hp, hm]
  · intro line b c hm
    have hL := matchLoadConst_of_read hm
    obtain ⟨t, hp⟩ := matchRead_head hm
    rw [hp] at hm hL
    simp [parse_line, hp, hm, hL]
  · intro line b c hm
    obtain ⟨t, hp⟩ := matchWrite_head hm
    rw [hp] at hm
    simp [parse_line, hp, hm, matchLoadConst_of_m, matchRead_of_m]
  · intro line c b d hm
    obtain ⟨u, ha⟩ := matchSub_subAddr hm
    have hW := matchWrite_of_subAddr ha
    obtain ⟨t, hp⟩ := subAddrPrefix_head ha
    rw [hp] at hm hW
    simp [parse_line, hp, hm, hW, matchLoadConst_of_m, matchRead_of_m]
  · intro line c b c2 b2 d hm hb hc
    subst hb
    subst hc
    obtain ⟨u, ha⟩ := matchSubEq_subAddr hm
    have hW := matchWrite_of_subAddr ha
    have hS := matchSub_of_subEq hm
    obtain ⟨t, hp⟩ := subAddrPrefix_head ha
    rw [hp] at hm hW hS
    simp [parse_line, hp, hm, hW, hS, matchLoadConst_of_m, matchRead_of_m]

/-- C9 witness: concrete oversized-literal lines for the first and fourth
grammar forms parse successfully. -/
theorem claim_C9_parse_then_encode_check_witness :
    parse_line "r999 = 99999".data
      = .ok (some ⟨"load_const", 14, (999 : Int), some (99999 : Int), none⟩) ∧
    parse_line "mem[r200 + 77] -= r1000".data
      = .ok (some ⟨"sub_mem", 1, (77 : Int), some (200 : Int), some (1000 : Int)⟩) :=
  ⟨claim_C9_parse_then_encode_check.1 "r999 = 99999".data 999 99999 rfl,
   claim_C9_parse_then_encode_check.2.2.2.1 "mem[r200 + 77] -= r1000".data 200 77 1000 rfl⟩

/-! ## C8 : alternate SubMem spelling -/

/-- C8: a line matching the alternate spelling
`mem[rC + B] = mem[rC2 + B2] - rD` parses successfully exactly when `B = B2`
and `C = C2`, in which case it yields the very record (kind `sub_mem`,
opcode 1, offset `B`, base `C`, source `D`) that the canonical spelling
`mem[rC + B] -= rD` with the same values yields — hence also the same three
encoded bytes — and with a mismatched offset or base it fails. -/
theorem claim_C8_subeq_equivalence :
    ∀ (line : List Char) (c b c2 b2 d : Nat),
      matchSubEq (prepLine line) = some (c, b, c2, b2, d) →
      (parse_line line = if b = b2 ∧ c = c2
          then .ok (some ⟨"sub_mem", 1, (b : Int), some (c : Int), some (d : Int)⟩)
          else .error .subEqMismatch) ∧
      (∀ line' : List Char, matchSub (prepLine line') = some (c, b, d) →
        parse_line line'
          = .ok (some ⟨"sub_mem", 1, (b : Int), some (c : Int), some (d : Int)⟩)) := by
  intro line c b c2 b2 d hm
  obtain ⟨u, ha⟩ := matchSubEq_subAddr hm
  have hW := matchWrite_of_subAddr ha
  have hS := matchSub_of_subEq hm
  obtain ⟨t, hp⟩ := subAddrPrefix_head ha
  rw [hp] at hm hW hS
  constructor
  · by_cases hbc : b = b2 ∧ c = c2
    · rw [if_pos hbc]
      simp [parse_line, hp, hm, hW, hS, matchLoadConst_of_m, matchRead_of_m,
        hbc.1, hbc.2]
    · rw [if_neg hbc]
      have hor : b ≠ b2 ∨ c ≠ c2 := by tauto
      simp [parse_line, hp, hm, hW, hS, matchLoadConst_of_m, matchRead_of_m, hor]
  · intro line' hs'
    obtain ⟨u', ha'⟩ := matchSub_subAddr hs'
    have hW' := matchWrite_of_subAddr ha'
    obtain ⟨t', hp'⟩ := subAddrPrefix_head ha'
    rw [hp'] at hs' hW'
    simp [parse_line, hp', hs', hW', matchLoadConst_of_m, matchRead_of_m]

/-- C8 witness: the matched alternate spelling, a mismatched alternate
spelling, and the canonical spelling with the same values. -/
theorem claim_C8_subeq_equivalence_witness :
    parse_line "mem[r1+2] = mem[r1+2] - r4".data
      = .ok (some ⟨"sub_mem", 1, 2, some 1, some 4⟩) ∧
    parse_line "mem[r1+2] = mem[r1+3] - r4".data = .error .subEqMismatch ∧
    parse_line "mem[r1+2]-=r4".data
      = .ok (some ⟨"sub_mem", 1, 2, some 1, some 4⟩) := by
  have h1 := claim_C8_subeq_equivalence "mem[r1+2] = mem[r1+2] - r4".data 1 2 1 2 4 rfl
  have h2 := claim_C8_subeq_equivalence "mem[r1+2] = mem[r1+3] - r4".data 1 2 1 3 4 rfl
  refine ⟨?_, ?_, ?_⟩
  · rw [h1.1]
    norm_num
  · rw [h2.1]
    norm_num
  · exact h1.2 "mem[r1+2]-=r4".data rfl
